import Mathlib

/-
Verification of the Game of Life engine in src/Source.cpp.

The C++ program stores the live cells of the current generation in a
std::set<Coordinate>, ordered by the lexicographic operator< of Coordinate.
Since that order is a strict total order whose induced equivalence agrees
with operator== (proved below), a std::set<Coordinate> is exactly a finite
set of coordinates, which we model as Finset Coordinate.  The C++ int
components are modelled as Int; the spec declares integer overflow at
extreme magnitudes explicitly out of scope.

The class Life has three fields: LiveCells, gen, and the private scratch
set LiveCellsNextGen.  The member functions Birth and SurvivalAndDeath
insert cells into LiveCellsNextGen; AdvanceOne runs both, copies
LiveCellsNextGen into LiveCells, clears LiveCellsNextGen and increments
gen.  We model the state by a structure with the same three fields and
each member function as a state transformer, keeping the insertion into
whatever LiveCellsNextGen already holds so that the scratch-set discipline
is itself visible in the model.
-/

/-- Model of struct Coordinate: a pair of integers X, Y. -/
structure Coordinate where
  X : Int
  Y : Int
deriving DecidableEq, Repr

/-- Model of Coordinate::operator==: true iff both components are
pairwise equal. -/
def Coordinate.eqOp (a xy : Coordinate) : Bool :=
  if a.X = xy.X ∧ a.Y = xy.Y then true else false

/-- Model of Coordinate::operator<: lexicographic, X primary then Y. -/
def Coordinate.ltOp (a xy : Coordinate) : Bool :=
  if a.X < xy.X then true
  else if a.X = xy.X ∧ a.Y < xy.Y then true
  else false

/-- Model of Life::Neighbours: the set of the 8 cells adjacent to xy
(the C++ code builds the set from the eight offset coordinates SW, W,
NW, S, N, SE, E, NE). -/
def Neighbours (xy : Coordinate) : Finset Coordinate :=
  {⟨xy.X - 1, xy.Y - 1⟩, ⟨xy.X - 1, xy.Y⟩, ⟨xy.X - 1, xy.Y + 1⟩,
   ⟨xy.X, xy.Y - 1⟩, ⟨xy.X, xy.Y + 1⟩,
   ⟨xy.X + 1, xy.Y - 1⟩, ⟨xy.X + 1, xy.Y⟩, ⟨xy.X + 1, xy.Y + 1⟩}

/-- Model of Life::AllDeadNeighbours: the union dn of the neighbour sets
of all live cells, minus (std::set_difference) the live cells. -/
def AllDeadNeighbours (LiveCells : Finset Coordinate) : Finset Coordinate :=
  (LiveCells.biUnion Neighbours) \ LiveCells

/-- The set of cells inserted into LiveCellsNextGen by Life::Birth: the
dead neighbour candidates whose neighbour set meets LiveCells
(std::set_intersection) in a set of size exactly 3. -/
def BirthSet (LiveCells : Finset Coordinate) : Finset Coordinate :=
  (AllDeadNeighbours LiveCells).filter
    (fun c => (Neighbours c ∩ LiveCells).card = 3)

/-- The set of cells inserted into LiveCellsNextGen by
Life::SurvivalAndDeath: the live cells whose neighbour set meets
LiveCells in a set of size 2 or 3. -/
def SurvivalSet (LiveCells : Finset Coordinate) : Finset Coordinate :=
  LiveCells.filter
    (fun c => (Neighbours c ∩ LiveCells).card = 2 ∨
              (Neighbours c ∩ LiveCells).card = 3)

/-- Model of class Life: current live cells, generation counter, and the
private scratch set LiveCellsNextGen. -/
structure Life where
  LiveCells : Finset Coordinate
  gen : Nat
  LiveCellsNextGen : Finset Coordinate
deriving DecidableEq

/-- Model of the constructor Life(std::set<Coordinate> LiveCells_):
stores the given set and sets gen to 0 (LiveCellsNextGen starts empty). -/
def Life.init (LiveCells_ : Finset Coordinate) : Life :=
  ⟨LiveCells_, 0, ∅⟩

/-- Model of constructing a Life from a braced initializer list of
coordinates, as the scenario functions in main do: std::set collapses
duplicates, which List.toFinset models. -/
def Life.initOfList (l : List Coordinate) : Life :=
  Life.init l.toFinset

/-- Model of Life::Birth as a state transformer: inserts BirthSet of the
current live cells into LiveCellsNextGen. -/
def Life.Birth (s : Life) : Life :=
  { s with LiveCellsNextGen := s.LiveCellsNextGen ∪ BirthSet s.LiveCells }

/-- Model of Life::SurvivalAndDeath as a state transformer: inserts
SurvivalSet of the current live cells into LiveCellsNextGen. -/
def Life.SurvivalAndDeath (s : Life) : Life :=
  { s with LiveCellsNextGen := s.LiveCellsNextGen ∪ SurvivalSet s.LiveCells }

/-- Model of Life::AdvanceOne: run Birth then SurvivalAndDeath (both read
only LiveCells, which neither mutates, so both see the pre-advance
snapshot), copy LiveCellsNextGen into LiveCells, clear LiveCellsNextGen,
and add 1 to gen. -/
def Life.AdvanceOne (s : Life) : Life :=
  let s1 := s.Birth
  let s2 := s1.SurvivalAndDeath
  { LiveCells := s2.LiveCellsNextGen, gen := s2.gen + 1, LiveCellsNextGen := ∅ }

/-- Model of Life::AdvanceTo: while gen < n, AdvanceOne. -/
def Life.AdvanceTo (s : Life) (n : Nat) : Life :=
  if s.gen < n then Life.AdvanceTo s.AdvanceOne n else s
termination_by n - s.gen
decreasing_by
  simp only [Life.AdvanceOne, Life.SurvivalAndDeath, Life.Birth]
  omega

/-- Model of Life::Gen: returns the generation counter. -/
def Life.Gen (s : Life) : Nat := s.gen

/-- Model of Life::cardLiveCells: returns the size of LiveCells. -/
def Life.cardLiveCells (s : Life) : Nat := s.LiveCells.card

/-- The blinker initial configuration of Scenario6. -/
def blinker : Finset Coordinate := {⟨0, 0⟩, ⟨1, 0⟩, ⟨-1, 0⟩}

-- Basic unfolding lemmas for AdvanceOne.

/-- AdvanceOne leaves in LiveCells whatever was in the scratch set plus
the birth and survival results. -/
theorem advanceOne_liveCells (s : Life) :
    (s.AdvanceOne).LiveCells =
      (s.LiveCellsNextGen ∪ BirthSet s.LiveCells) ∪ SurvivalSet s.LiveCells :=
  rfl

/-- AdvanceOne adds exactly 1 to gen. -/
theorem advanceOne_gen (s : Life) : (s.AdvanceOne).gen = s.gen + 1 := rfl

/-- AdvanceOne leaves the scratch set empty. -/
theorem advanceOne_nextGen (s : Life) :
    (s.AdvanceOne).LiveCellsNextGen = ∅ := rfl

/-- Unfolding equation for AdvanceTo. -/
theorem advanceTo_eq (s : Life) (n : Nat) :
    s.AdvanceTo n = if s.gen < n then (s.AdvanceOne).AdvanceTo n else s := by
  rw [Life.AdvanceTo]

-- Helper lemmas for the Coordinate operators.

/-- eqOp agrees with propositional equality of coordinates. -/
theorem eqOp_iff (a b : Coordinate) : Coordinate.eqOp a b = true ↔ a = b := by
  obtain ⟨ax, ay⟩ := a
  obtain ⟨bx, by1⟩ := b
  simp only [Coordinate.eqOp, Coordinate.mk.injEq]
  split_ifs with h <;> simp_all

/-- ltOp holds exactly on lexicographically smaller pairs. -/
theorem ltOp_iff (a b : Coordinate) :
    Coordinate.ltOp a b = true ↔ (a.X < b.X ∨ (a.X = b.X ∧ a.Y < b.Y)) := by
  simp only [Coordinate.ltOp]
  split_ifs with h1 h2 <;> simp_all

/-- ltOp is false exactly on pairs that are not lexicographically
smaller. -/
theorem ltOp_false_iff (a b : Coordinate) :
    Coordinate.ltOp a b = false ↔
      ¬(a.X < b.X ∨ (a.X = b.X ∧ a.Y < b.Y)) := by
  rw [← Bool.not_eq_true]
  exact not_congr (ltOp_iff a b)

/-- eqOp is false exactly on distinct coordinates. -/
theorem eqOp_false_iff (a b : Coordinate) :
    Coordinate.eqOp a b = false ↔ ¬(a = b) := by
  rw [← Bool.not_eq_true]
  exact not_congr (eqOp_iff a b)

/-- C6: Coordinate equality holds iff both components match, the
comparison operator is the strict lexicographic order with X primary and
Y secondary, for all a b exactly one of a < b, b < a, a == b holds, and
the order is transitive. -/
theorem spec_coordinate_order (a b : Coordinate) :
    (Coordinate.eqOp a b = true ↔ a = b) ∧
    (Coordinate.ltOp a b = true ↔
      (a.X < b.X ∨ (a.X = b.X ∧ a.Y < b.Y))) ∧
    ((Coordinate.ltOp a b = true ∧ Coordinate.ltOp b a = false ∧
        Coordinate.eqOp a b = false) ∨
     (Coordinate.ltOp b a = true ∧ Coordinate.ltOp a b = false ∧
        Coordinate.eqOp a b = false) ∨
     (Coordinate.eqOp a b = true ∧ Coordinate.ltOp a b = false ∧
        Coordinate.ltOp b a = false)) ∧
    (∀ c : Coordinate, Coordinate.ltOp a b = true →
      Coordinate.ltOp b c = true → Coordinate.ltOp a c = true) := by
  refine ⟨eqOp_iff a b, ltOp_iff a b, ?_, ?_⟩
  · obtain ⟨ax, ay⟩ := a
    obtain ⟨bx, by1⟩ := b
    simp only [ltOp_iff, ltOp_false_iff, eqOp_iff, eqOp_false_iff,
      Coordinate.mk.injEq]
    omega
  · intro c hab hbc
    rw [ltOp_iff] at hab hbc ⊢
    omega

/-- Witness for C6 at concrete coordinates, with the transitivity
hypotheses discharged at (0,0) < (0,1) < (1,0). -/
theorem spec_coordinate_order_witness :
    (Coordinate.eqOp ⟨0, 0⟩ ⟨0, 0⟩ = true) ∧
    (Coordinate.ltOp ⟨0, 0⟩ ⟨0, 1⟩ = true) ∧
    (Coordinate.ltOp ⟨0, 0⟩ ⟨1, 0⟩ = true) :=
  ⟨(spec_coordinate_order ⟨0, 0⟩ ⟨0, 0⟩).1.mpr rfl,
   (spec_coordinate_order ⟨0, 0⟩ ⟨0, 1⟩).2.1.mpr (by decide),
   (spec_coordinate_order ⟨0, 0⟩ ⟨0, 1⟩).2.2.2 ⟨1, 0⟩ (by decide) (by decide)⟩

/-- C4: Neighbours c is a set of exactly 8 coordinates, none equal to c,
and membership in it is exactly Chebyshev distance 1 from c. -/
theorem spec_neighbours_eight (c : Coordinate) :
    (Neighbours c).card = 8 ∧ c ∉ Neighbours c ∧
      ∀ d : Coordinate, d ∈ Neighbours c ↔
        max (d.X - c.X).natAbs (d.Y - c.Y).natAbs = 1 := by
  obtain ⟨x, y⟩ := c
  refine ⟨?_, ?_, ?_⟩
  · simp only [Neighbours]
    rw [Finset.card_insert_of_not_mem (by
          simp only [Finset.mem_insert, Finset.mem_singleton,
            Coordinate.mk.injEq, not_or]; omega),
        Finset.card_insert_of_not_mem (by
          simp only [Finset.mem_insert, Finset.mem_singleton,
            Coordinate.mk.injEq, not_or]; omega),
        Finset.card_insert_of_not_mem (by
          simp only [Finset.mem_insert, Finset.mem_singleton,
            Coordinate.mk.injEq, not_or]; omega),
        Finset.card_insert_of_not_mem (by
          simp only [Finset.mem_insert, Finset.mem_singleton,
            Coordinate.mk.injEq, not_or]; omega),
        Finset.card_insert_of_not_mem (by
          simp only [Finset.mem_insert, Finset.mem_singleton,
            Coordinate.mk.injEq, not_or]; omega),
        Finset.card_insert_of_not_mem (by
          simp only [Finset.mem_insert, Finset.mem_singleton,
            Coordinate.mk.injEq, not_or]; omega),
        Finset.card_insert_of_not_mem (by
          simp only [Finset.mem_insert, Finset.mem_singleton,
            Coordinate.mk.injEq, not_or]; omega),
        Finset.card_singleton]
  · simp only [Neighbours, Finset.mem_insert, Finset.mem_singleton,
      Coordinate.mk.injEq, not_or]
    omega
  · intro d
    obtain ⟨dx, dy⟩ := d
    simp only [Neighbours, Finset.mem_insert, Finset.mem_singleton,
      Coordinate.mk.injEq]
    omega

/-- C2: a cell c that is not alive is in the birth result iff it is a
neighbour of at least one live cell and exactly 3 of its 8 neighbours
are alive; any other live-neighbour count, or no adjacency to live
cells at all, keeps it out. -/
theorem spec_birth_rule (live : Finset Coordinate) (c : Coordinate)
    (h : c ∉ live) :
    c ∈ BirthSet live ↔
      ((∃ l ∈ live, c ∈ Neighbours l) ∧
        (Neighbours c ∩ live).card = 3) := by
  simp only [BirthSet, AllDeadNeighbours, Finset.mem_filter,
    Finset.mem_sdiff, Finset.mem_biUnion]
  constructor
  · rintro ⟨⟨hmem, hdead⟩, hcard⟩
    exact ⟨hmem, hcard⟩
  · rintro ⟨hmem, hcard⟩
    exact ⟨⟨hmem, h⟩, hcard⟩

/-- Witness for C2 at the Scenario4 configuration, where the dead origin
has exactly 3 live neighbours. -/
theorem spec_birth_rule_witness :
    (⟨0, 0⟩ : Coordinate) ∈ BirthSet {⟨1, 0⟩, ⟨-1, 0⟩, ⟨0, 1⟩} ↔
      ((∃ l ∈ ({⟨1, 0⟩, ⟨-1, 0⟩, ⟨0, 1⟩} : Finset Coordinate),
          (⟨0, 0⟩ : Coordinate) ∈ Neighbours l) ∧
        (Neighbours ⟨0, 0⟩ ∩ {⟨1, 0⟩, ⟨-1, 0⟩, ⟨0, 1⟩}).card = 3) :=
  spec_birth_rule _ _ (by decide)

/-- C3: a live cell c is retained by the survival rule iff the
intersection of its neighbour set with the live set has cardinality
exactly 2 or exactly 3; otherwise it is dropped. -/
theorem spec_survival_rule (live : Finset Coordinate) (c : Coordinate)
    (h : c ∈ live) :
    c ∈ SurvivalSet live ↔
      ((Neighbours c ∩ live).card = 2 ∨
        (Neighbours c ∩ live).card = 3) := by
  simp only [SurvivalSet, Finset.mem_filter, h, true_and]

/-- Witness for C3 at the Scenario3 configuration, where the live origin
has exactly 2 live neighbours. -/
theorem spec_survival_rule_witness :
    (⟨0, 0⟩ : Coordinate) ∈ SurvivalSet {⟨0, 0⟩, ⟨1, 1⟩, ⟨1, 0⟩} ↔
      ((Neighbours ⟨0, 0⟩ ∩ {⟨0, 0⟩, ⟨1, 1⟩, ⟨1, 0⟩}).card = 2 ∨
        (Neighbours ⟨0, 0⟩ ∩ {⟨0, 0⟩, ⟨1, 1⟩, ⟨1, 0⟩}).card = 3) :=
  spec_survival_rule _ _ (by decide)

/-- C1: starting from a state whose scratch set is empty (as all states
reachable through the public interface are), AdvanceOne replaces
LiveCells with exactly the union of the birth result and the survival
result, both computed against the pre-advance LiveCells snapshot, and
adds exactly 1 to gen. -/
theorem spec_advanceOne_next_generation (s : Life)
    (h : s.LiveCellsNextGen = ∅) :
    (s.AdvanceOne).LiveCells =
      ((AllDeadNeighbours s.LiveCells).filter
        (fun c => (Neighbours c ∩ s.LiveCells).card = 3)) ∪
      (s.LiveCells.filter
        (fun c => (Neighbours c ∩ s.LiveCells).card = 2 ∨
                  (Neighbours c ∩ s.LiveCells).card = 3)) ∧
    (s.AdvanceOne).gen = s.gen + 1 := by
  constructor
  · rw [advanceOne_liveCells, h, Finset.empty_union]
    rfl
  · exact advanceOne_gen s

/-- Witness for C1 at the blinker initial state. -/
theorem spec_advanceOne_next_generation_witness :
    ((Life.init blinker).AdvanceOne).LiveCells =
      ((AllDeadNeighbours (Life.init blinker).LiveCells).filter
        (fun c => (Neighbours c ∩ (Life.init blinker).LiveCells).card = 3)) ∪
      ((Life.init blinker).LiveCells.filter
        (fun c => (Neighbours c ∩ (Life.init blinker).LiveCells).card = 2 ∨
                  (Neighbours c ∩ (Life.init blinker).LiveCells).card = 3)) ∧
    ((Life.init blinker).AdvanceOne).gen = (Life.init blinker).gen + 1 :=
  spec_advanceOne_next_generation (Life.init blinker) rfl

-- Lemmas on AdvanceTo, proved by induction on the distance n - gen.

/-- AdvanceTo reaches generation max gen n (fuel-indexed induction). -/
theorem advanceTo_gen_aux (k : Nat) :
    ∀ (s : Life) (n : Nat), n - s.gen ≤ k →
      (s.AdvanceTo n).gen = max s.gen n := by
  induction k with
  | zero =>
    intro s n h
    rw [advanceTo_eq, if_neg (by omega)]
    omega
  | succ k ih =>
    intro s n h
    rw [advanceTo_eq]
    by_cases hlt : s.gen < n
    · rw [if_pos hlt, ih (s.AdvanceOne) n (by rw [advanceOne_gen]; omega),
        advanceOne_gen]
      omega
    · rw [if_neg hlt]
      omega

/-- AdvanceTo either returns the state unchanged or returns the result
of a final AdvanceOne call. -/
theorem advanceTo_cases_aux (k : Nat) :
    ∀ (s : Life) (n : Nat), n - s.gen ≤ k →
      s.AdvanceTo n = s ∨ ∃ t : Life, s.AdvanceTo n = t.AdvanceOne := by
  induction k with
  | zero =>
    intro s n h
    rw [advanceTo_eq, if_neg (by omega)]
    exact Or.inl rfl
  | succ k ih =>
    intro s n h
    rw [advanceTo_eq]
    by_cases hlt : s.gen < n
    · rw [if_pos hlt]
      rcases ih (s.AdvanceOne) n (by rw [advanceOne_gen]; omega) with
        h1 | ⟨t, h1⟩
      · exact Or.inr ⟨s, by rw [h1]⟩
      · exact Or.inr ⟨t, h1⟩
    · rw [if_neg hlt]
      exact Or.inl rfl

/-- Closed form of advanceTo_cases_aux. -/
theorem advanceTo_cases (s : Life) (n : Nat) :
    s.AdvanceTo n = s ∨ ∃ t : Life, s.AdvanceTo n = t.AdvanceOne :=
  advanceTo_cases_aux (n - s.gen) s n le_rfl

/-- C5: AdvanceTo unfolds to AdvanceOne then AdvanceTo while gen < n,
is a no-op when n is at most gen, leaves gen at max of the previous gen
and n, and a second AdvanceTo n immediately after is a no-op. -/
theorem spec_advanceTo (s : Life) (n : Nat) :
    (s.gen < n → s.AdvanceTo n = (s.AdvanceOne).AdvanceTo n) ∧
    (n ≤ s.gen → s.AdvanceTo n = s) ∧
    (s.AdvanceTo n).gen = max s.gen n ∧
    (s.AdvanceTo n).AdvanceTo n = s.AdvanceTo n := by
  have hgen : ∀ t : Life, (t.AdvanceTo n).gen = max t.gen n :=
    fun t => advanceTo_gen_aux (n - t.gen) t n le_rfl
  refine ⟨?_, ?_, hgen s, ?_⟩
  · intro h
    rw [advanceTo_eq, if_pos h]
  · intro h
    rw [advanceTo_eq, if_neg (by omega)]
  · rw [advanceTo_eq (s.AdvanceTo n) n, if_neg (by rw [hgen s]; omega)]

/-- Witness for C5: the unfolding hypothesis discharged at the empty
engine with target 2, the no-op hypothesis at target 0. -/
theorem spec_advanceTo_witness :
    ((Life.init ∅).AdvanceTo 2 = ((Life.init ∅).AdvanceOne).AdvanceTo 2) ∧
    ((Life.init ∅).AdvanceTo 0 = Life.init ∅) ∧
    (((Life.init ∅).AdvanceTo 2).gen = max (Life.init ∅).gen 2) ∧
    (((Life.init ∅).AdvanceTo 2).AdvanceTo 2 = (Life.init ∅).AdvanceTo 2) :=
  ⟨(spec_advanceTo (Life.init ∅) 2).1 (by decide),
   (spec_advanceTo (Life.init ∅) 0).2.1 (by decide),
   (spec_advanceTo (Life.init ∅) 2).2.2.1,
   (spec_advanceTo (Life.init ∅) 2).2.2.2⟩

-- The empty configuration produces nothing.

/-- BirthSet of the empty live set is empty. -/
theorem birthSet_empty : BirthSet ∅ = ∅ := by decide

/-- SurvivalSet of the empty live set is empty. -/
theorem survivalSet_empty : SurvivalSet ∅ = ∅ := by decide

/-- The scratch set is empty after any number of AdvanceOne steps from a
freshly constructed engine. -/
theorem iterate_nextGen (A : Finset Coordinate) (k : Nat) :
    ((Life.AdvanceOne)^[k] (Life.init A)).LiveCellsNextGen = ∅ := by
  cases k with
  | zero => rfl
  | succ k =>
    rw [Function.iterate_succ_apply']
    exact advanceOne_nextGen _

/-- C7: the engine constructed with the empty live set still has an
empty live set after any number k of AdvanceOne calls (cardLiveCells
returns 0), and its generation counter equals k. -/
theorem spec_empty_stays_empty (k : Nat) :
    ((Life.AdvanceOne)^[k] (Life.init ∅)).LiveCells = ∅ ∧
    ((Life.AdvanceOne)^[k] (Life.init ∅)).gen = k ∧
    Life.cardLiveCells ((Life.AdvanceOne)^[k] (Life.init ∅)) = 0 := by
  induction k with
  | zero => exact ⟨rfl, rfl, rfl⟩
  | succ k ih =>
    obtain ⟨h1, h2, h3⟩ := ih
    have hnext := iterate_nextGen (∅ : Finset Coordinate) k
    have hlive : ((Life.AdvanceOne)^[k + 1] (Life.init ∅)).LiveCells = ∅ := by
      rw [Function.iterate_succ_apply', advanceOne_liveCells, hnext, h1,
        birthSet_empty, survivalSet_empty]
      simp
    refine ⟨hlive, ?_, ?_⟩
    · rw [Function.iterate_succ_apply', advanceOne_gen, h2]
    · simp only [Life.cardLiveCells, hlive, Finset.card_empty]

/-- C8: the horizontal blinker becomes the vertical blinker after one
AdvanceOne, returns to the horizontal blinker after a second, and the
generation counter is then 2. -/
theorem spec_blinker_oscillates :
    ((Life.init blinker).AdvanceOne).LiveCells =
      ({⟨0, 0⟩, ⟨0, 1⟩, ⟨0, -1⟩} : Finset Coordinate) ∧
    (((Life.init blinker).AdvanceOne).AdvanceOne).LiveCells = blinker ∧
    (((Life.init blinker).AdvanceOne).AdvanceOne).gen = 2 := by
  decide

/-- C9: the live set never holds two equal coordinates: construction
from a list with duplicates collapses them (membership is preserved, no
error, generation 0), and both advance operations yield live sets with
no duplicates. -/
theorem spec_uniqueness_invariant (l : List Coordinate) :
    (Life.initOfList l).LiveCells.val.Nodup ∧
    (∀ c : Coordinate, c ∈ (Life.initOfList l).LiveCells ↔ c ∈ l) ∧
    (Life.initOfList l).gen = 0 ∧
    (∀ s : Life, (s.AdvanceOne).LiveCells.val.Nodup) ∧
    (∀ (s : Life) (n : Nat), (s.AdvanceTo n).LiveCells.val.Nodup) := by
  refine ⟨(Life.initOfList l).LiveCells.nodup, ?_, rfl,
    fun s => (s.AdvanceOne).LiveCells.nodup,
    fun s n => (s.AdvanceTo n).LiveCells.nodup⟩
  intro c
  simp [Life.initOfList, Life.init]

/-- C10: the scratch set LiveCellsNextGen is empty in a freshly
constructed engine, empty after every AdvanceOne, and empty after every
AdvanceTo from a state whose scratch set is empty, so nothing computed
during one advance leaks into a later advance. -/
theorem spec_scratch_set_empty (A : Finset Coordinate) (s : Life) (n : Nat)
    (h : s.LiveCellsNextGen = ∅) :
    (Life.init A).LiveCellsNextGen = ∅ ∧
    (s.AdvanceOne).LiveCellsNextGen = ∅ ∧
    (s.AdvanceTo n).LiveCellsNextGen = ∅ := by
  refine ⟨rfl, advanceOne_nextGen s, ?_⟩
  rcases advanceTo_cases s n with hc | ⟨t, hc⟩
  · rw [hc]
    exact h
  · rw [hc]
    exact advanceOne_nextGen t

/-- Witness for C10 at a one-cell engine advanced to generation 1. -/
theorem spec_scratch_set_empty_witness :
    (Life.init {⟨2, 3⟩}).LiveCellsNextGen = ∅ ∧
    ((Life.init {⟨2, 3⟩}).AdvanceOne).LiveCellsNextGen = ∅ ∧
    ((Life.init {⟨2, 3⟩}).AdvanceTo 1).LiveCellsNextGen = ∅ :=
  spec_scratch_set_empty _ _ 1 rfl
